import Mathlib

/-!
Verification development for `executor_entities_collection.cpp` of rclcpp:
a shallow embedding of `ExecutorEntitiesCollection::empty`,
`ExecutorEntitiesCollection::clear`, `build_entities_collection` and
`ready_executables`, together with theorems about their behaviour.

Modelling conventions:
* An opaque handle (a raw pointer in the source) is a `Nat`.
* A weak reference to an entity is modelled by the entity record carrying an
  `alive` flag: `lock()` succeeds exactly when `alive = true`, and the strong
  reference obtained is the record itself.
* A weak reference to a callback group is a `Nat` identifier; a `World` maps
  that identifier to `some group` when `lock()` succeeds and `none` when the
  weak reference is expired.  The world is fixed for the duration of a call,
  reflecting that each C++ read happens at one instant of a sequential pass.
* `std::map` is modelled by a key-sorted association list whose `insert`
  keeps an existing entry for the key (the semantics of `std::map::insert`)
  and whose iteration order is ascending key order.
* `rcl_wait_set_t` arrays of possibly-null pointers are `List (Option Nat)`.
-/

namespace RclcppExec

/-- A key-sorted association-list model of `std::map` lookup (`find`). -/
def mapFind {α : Type} (m : List (Nat × α)) (k : Nat) : Option α :=
  match m with
  | [] => none
  | (k', v) :: rest => if k' = k then some v else mapFind rest k

/-- A key-sorted association-list model of `std::map::insert`: inserts in key
order and, when the key is already present, keeps the existing entry
(`std::map::insert` does not overwrite). -/
def mapInsert {α : Type} (m : List (Nat × α)) (k : Nat) (v : α) : List (Nat × α) :=
  match m with
  | [] => [(k, v)]
  | (k', v') :: rest =>
    if k < k' then (k, v) :: (k', v') :: rest
    else if k = k' then (k', v') :: rest
    else (k', v') :: mapInsert rest k v

/-- Modelled from the spec: a subscription entity.  `handle` models
`get_subscription_handle().get()`; `alive` models whether locking the weak
reference held by the collection succeeds. -/
structure SubscriptionBase where
  handle : Nat
  alive : Bool
deriving DecidableEq, Repr

/-- Modelled from the spec: a service entity (`get_service_handle().get()`). -/
structure ServiceBase where
  handle : Nat
  alive : Bool
deriving DecidableEq, Repr

/-- Modelled from the spec: a client entity (`get_client_handle().get()`). -/
structure ClientBase where
  handle : Nat
  alive : Bool
deriving DecidableEq, Repr

/-- Modelled from the spec: a timer entity.  `callResult` models the value
returned by `entity->call()` (the atomic attempt to claim the firing) during
this resolver pass. -/
structure TimerBase where
  handle : Nat
  alive : Bool
  callResult : Bool
deriving DecidableEq, Repr

/-- Modelled from the spec: a waitable entity.  `handle` models the pointer
identity `waitable.get()` used as its key; `isReady` models the value of
`is_ready(&rcl_wait_set)` for the wait set of this call; `takeData` models the
opaque payload returned by `take_data()`. -/
structure Waitable where
  handle : Nat
  alive : Bool
  isReady : Bool
  takeData : Nat
deriving DecidableEq, Repr

/-- Modelled from the spec: a callback group, with its atomic admission flag
`can_be_taken_from` and the member entities of each kind that
`collect_all_ptrs` enumerates (in its callback-argument order: subscriptions,
services, clients, timers, waitables). -/
structure CallbackGroup where
  can_be_taken_from : Bool
  subscriptions : List SubscriptionBase
  services : List ServiceBase
  clients : List ClientBase
  timers : List TimerBase
  waitables : List Waitable
deriving DecidableEq, Repr

/-- The environment resolving callback-group weak references: `groups g` is
`some cbg` when locking the weak reference `g` yields the live group `cbg`,
and `none` when the weak reference is expired. -/
structure World where
  groups : Nat → Option CallbackGroup

/-- An entry of one of the collection's maps: the entity (held weakly, see
the conventions above) together with the weak reference to its owning
callback group. -/
structure CollectionEntry (ε : Type) where
  entity : ε
  callback_group : Nat
deriving DecidableEq, Repr

/-- The collection of `ExecutorEntitiesCollection`: six handle-indexed maps,
as read off `empty()`/`clear()` in the source.  The guard-condition map is
never filled by `build_entities_collection`; only its emptiness is observed
in this translation unit, so its entries are `Unit`. -/
structure ExecutorEntitiesCollection where
  subscriptions : List (Nat × CollectionEntry SubscriptionBase)
  timers : List (Nat × CollectionEntry TimerBase)
  guard_conditions : List (Nat × Unit)
  clients : List (Nat × CollectionEntry ClientBase)
  services : List (Nat × CollectionEntry ServiceBase)
  waitables : List (Nat × CollectionEntry Waitable)
deriving DecidableEq, Repr

/-- `ExecutorEntitiesCollection::empty`. -/
def ExecutorEntitiesCollection.empty (c : ExecutorEntitiesCollection) : Bool :=
  c.subscriptions.isEmpty &&
  c.timers.isEmpty &&
  c.guard_conditions.isEmpty &&
  c.clients.isEmpty &&
  c.services.isEmpty &&
  c.waitables.isEmpty

/-- The collection with all six maps empty. -/
def emptyCollection : ExecutorEntitiesCollection :=
  ⟨[], [], [], [], [], []⟩

/-- `ExecutorEntitiesCollection::clear`: clears all six maps. -/
def ExecutorEntitiesCollection.clear (_ : ExecutorEntitiesCollection) :
    ExecutorEntitiesCollection :=
  emptyCollection

/-- The insertions performed by one `collect_all_ptrs` callback: each entity
of `es` is inserted into the map under its own handle, paired with the weak
reference `gid` to this group. -/
def insertEntityList {ε : Type} (gid : Nat) (handleOf : ε → Nat)
    (m : List (Nat × CollectionEntry ε)) (es : List ε) :
    List (Nat × CollectionEntry ε) :=
  es.foldl (fun acc e => mapInsert acc (handleOf e) ⟨e, gid⟩) m

/-- The five insertions performed by the `collect_all_ptrs` callbacks for one
live, admitted group: each member entity is inserted under its own handle
into the map of its kind, paired with the weak reference to this group. -/
def insertGroupEntities (gid : Nat) (g : CallbackGroup)
    (c : ExecutorEntitiesCollection) : ExecutorEntitiesCollection :=
  { subscriptions :=
      insertEntityList gid SubscriptionBase.handle c.subscriptions g.subscriptions
    timers := insertEntityList gid TimerBase.handle c.timers g.timers
    guard_conditions := c.guard_conditions
    clients := insertEntityList gid ClientBase.handle c.clients g.clients
    services := insertEntityList gid ServiceBase.handle c.services g.services
    waitables := insertEntityList gid Waitable.handle c.waitables g.waitables }

/-- The body of the group loop of `build_entities_collection`: lock the
group weak reference (skipping it when expired), read `can_be_taken_from`
(skipping the group when the flag is false) and insert the member entities
of an admitted group. -/
def buildStep (w : World) (c : ExecutorEntitiesCollection) (gid : Nat) :
    ExecutorEntitiesCollection :=
  match w.groups gid with
  | none => c
  | some g => if g.can_be_taken_from then insertGroupEntities gid g c else c

/-- `build_entities_collection`: clears the collection, then runs the group
loop over the supplied weak references in order. -/
def build_entities_collection (w : World) (callback_groups : List Nat)
    (collection : ExecutorEntitiesCollection) : ExecutorEntitiesCollection :=
  callback_groups.foldl (buildStep w) collection.clear

/-- `rclcpp::WaitResultKind`. -/
inductive WaitResultKind where
  | Ready
  | Timeout
  | Empty
deriving DecidableEq, Repr

/-- Modelled from the spec: the `rcl_wait_set_t` arrays consulted by
`ready_executables` — for each of the four handle-indexed kinds, the array of
slots, each holding a ready handle or null. -/
structure RclWaitSet where
  timers : List (Option Nat)
  subscriptions : List (Option Nat)
  services : List (Option Nat)
  clients : List (Option Nat)
deriving DecidableEq, Repr

/-- Modelled from the spec: the poll result handed to `ready_executables` —
its kind and (via `get_wait_set().get_rcl_wait_set()`) the wait-set arrays. -/
structure WaitResult where
  kind : WaitResultKind
  waitSet : RclWaitSet
deriving DecidableEq, Repr

/-- The entity stored in a produced work item, tagged by kind. -/
inductive Entity where
  | timer (t : TimerBase)
  | subscription (s : SubscriptionBase)
  | service (s : ServiceBase)
  | client (c : ClientBase)
  | waitable (w : Waitable)
deriving DecidableEq, Repr

/-- Modelled from the spec: `rclcpp::AnyExecutable` as produced here — the
strong entity reference, the (possibly null) strong group reference
`group_info.ptr`, and the opaque payload attached only for waitables. -/
structure AnyExecutable where
  entity : Entity
  callback_group : Option Nat
  data : Option Nat
deriving DecidableEq, Repr

/-- The per-call cache record of `ready_executables`: the locked group
pointer (null when the weak reference is expired) and the cached
`can_be_taken_from` value (defaulting to `false` when the lock fails). -/
structure CachedCallbackGroup where
  ptr : Option Nat
  can_be_taken_from : Bool
deriving DecidableEq, Repr

/-- The cache entry `group_cache` computes on a miss for group `gid`: lock
the weak reference once and, if live, read the admission flag. -/
def freshGroupInfo (w : World) (gid : Nat) : CachedCallbackGroup :=
  match w.groups gid with
  | some g => ⟨some gid, g.can_be_taken_from⟩
  | none => ⟨none, false⟩

/-- The `group_cache` lambda of `ready_executables`: on a hit return the
cached record unchanged; on a miss compute `freshGroupInfo` and insert it
into the per-call map keyed by the group weak reference. -/
def groupCacheLookup (w : World) (cache : List (Nat × CachedCallbackGroup))
    (gid : Nat) : CachedCallbackGroup × List (Nat × CachedCallbackGroup) :=
  match mapFind cache gid with
  | some info => (info, cache)
  | none =>
    let temp := freshGroupInfo w gid
    (temp, mapInsert cache gid temp)

/-- The state threaded through the loops of `ready_executables`: the group
cache, the output deque, and the `added` counter. -/
structure ResolveState where
  cache : List (Nat × CachedCallbackGroup)
  executables : List AnyExecutable
  added : Nat
deriving Repr

/-- One iteration of any of the four handle-lookup loops of
`ready_executables`, shared by the timer, subscription, service and client
loops: skip null slots, look the handle up in the kind's map, lock the
entity, consult the group cache and skip live groups whose cached flag is
false, run the kind's extra check (`call()` for timers, trivially true for
the other kinds), and append a work item; `countIt` is false exactly for the
service loop, which does not increment `added`. -/
def lookupStep {ε : Type} (w : World) (m : List (Nat × CollectionEntry ε))
    (aliveOf : ε → Bool) (extra : ε → Bool) (mk : ε → Entity) (countIt : Bool)
    (st : ResolveState) (slot : Option Nat) : ResolveState :=
  match slot with
  | none => st
  | some h =>
    match mapFind m h with
    | none => st
    | some entry =>
      if aliveOf entry.entity then
        let r := groupCacheLookup w st.cache entry.callback_group
        if r.1.ptr.isSome && !r.1.can_be_taken_from then
          { st with cache := r.2 }
        else if extra entry.entity then
          { cache := r.2,
            executables := st.executables ++ [⟨mk entry.entity, r.1.ptr, none⟩],
            added := if countIt then st.added + 1 else st.added }
        else
          { st with cache := r.2 }
      else st

/-- One iteration of the waitable loop of `ready_executables`: for an index
entry (visited in map order), lock the entity, test `is_ready`, consult the
group cache and skip live groups whose cached flag is false, then append a
work item carrying the `take_data()` payload and increment `added`. -/
def waitableStep (w : World) (st : ResolveState)
    (kv : Nat × CollectionEntry Waitable) : ResolveState :=
  if kv.2.entity.alive then
    if kv.2.entity.isReady then
      let r := groupCacheLookup w st.cache kv.2.callback_group
      if r.1.ptr.isSome && !r.1.can_be_taken_from then
        { st with cache := r.2 }
      else
        { cache := r.2,
          executables := st.executables ++
            [⟨Entity.waitable kv.2.entity, r.1.ptr, some kv.2.entity.takeData⟩],
          added := st.added + 1 }
    else st
  else st

/-- `ready_executables`: if the wait result kind is not `Ready`, return 0
and leave the output deque untouched; otherwise run the five loops in order
(timers, subscriptions, services, clients, waitables), appending admitted
work items to `executables` and counting all but the service items.  Returns
the `added` count paired with the extended deque. -/
def ready_executables (w : World) (collection : ExecutorEntitiesCollection)
    (wait_result : WaitResult) (executables : List AnyExecutable) :
    Nat × List AnyExecutable :=
  if wait_result.kind ≠ WaitResultKind.Ready then
    (0, executables)
  else
    let ws := wait_result.waitSet
    let st0 : ResolveState := ⟨[], executables, 0⟩
    let st1 := ws.timers.foldl
      (lookupStep w collection.timers TimerBase.alive TimerBase.callResult Entity.timer true) st0
    let st2 := ws.subscriptions.foldl
      (lookupStep w collection.subscriptions SubscriptionBase.alive (fun _ => true)
        Entity.subscription true) st1
    let st3 := ws.services.foldl
      (lookupStep w collection.services ServiceBase.alive (fun _ => true)
        Entity.service false) st2
    let st4 := ws.clients.foldl
      (lookupStep w collection.clients ClientBase.alive (fun _ => true)
        Entity.client true) st3
    let st5 := collection.waitables.foldl (waitableStep w) st4
    (st5.added, st5.executables)

/-- The work item (if any) contributed by one slot of a handle-lookup loop. -/
def lookupItem {ε : Type} (w : World) (m : List (Nat × CollectionEntry ε))
    (aliveOf : ε → Bool) (extra : ε → Bool) (mk : ε → Entity)
    (slot : Option Nat) : Option AnyExecutable :=
  match slot with
  | none => none
  | some h =>
    match mapFind m h with
    | none => none
    | some entry =>
      if aliveOf entry.entity then
        let info := freshGroupInfo w entry.callback_group
        if info.ptr.isSome && !info.can_be_taken_from then none
        else if extra entry.entity then some ⟨mk entry.entity, info.ptr, none⟩
        else none
      else none

/-- The work items contributed by a handle-lookup loop, in slot order. -/
def lookupItems {ε : Type} (w : World) (m : List (Nat × CollectionEntry ε))
    (aliveOf : ε → Bool) (extra : ε → Bool) (mk : ε → Entity)
    (slots : List (Option Nat)) : List AnyExecutable :=
  slots.filterMap (lookupItem w m aliveOf extra mk)

/-- The work item (if any) contributed by one index entry of the waitable
loop. -/
def waitableItem (w : World) (kv : Nat × CollectionEntry Waitable) :
    Option AnyExecutable :=
  if kv.2.entity.alive then
    if kv.2.entity.isReady then
      let info := freshGroupInfo w kv.2.callback_group
      if info.ptr.isSome && !info.can_be_taken_from then none
      else some ⟨Entity.waitable kv.2.entity, info.ptr, some kv.2.entity.takeData⟩
    else none
  else none

/-- The work items contributed by the waitable loop, in index order. -/
def waitableItems (w : World) (entries : List (Nat × CollectionEntry Waitable)) :
    List AnyExecutable :=
  entries.filterMap (waitableItem w)

/-- The timer-loop items of `ready_executables`. -/
def timerItems (w : World) (c : ExecutorEntitiesCollection)
    (slots : List (Option Nat)) : List AnyExecutable :=
  lookupItems w c.timers TimerBase.alive TimerBase.callResult Entity.timer slots

/-- The subscription-loop items of `ready_executables`. -/
def subscriptionItems (w : World) (c : ExecutorEntitiesCollection)
    (slots : List (Option Nat)) : List AnyExecutable :=
  lookupItems w c.subscriptions SubscriptionBase.alive (fun _ => true)
    Entity.subscription slots

/-- The service-loop items of `ready_executables`. -/
def serviceItems (w : World) (c : ExecutorEntitiesCollection)
    (slots : List (Option Nat)) : List AnyExecutable :=
  lookupItems w c.services ServiceBase.alive (fun _ => true) Entity.service slots

/-- The client-loop items of `ready_executables`. -/
def clientItems (w : World) (c : ExecutorEntitiesCollection)
    (slots : List (Option Nat)) : List AnyExecutable :=
  lookupItems w c.clients ClientBase.alive (fun _ => true) Entity.client slots

/-- The handle of the entity carried by a work item. -/
def entityHandle : Entity → Nat
  | Entity.timer t => t.handle
  | Entity.subscription s => s.handle
  | Entity.service s => s.handle
  | Entity.client c => c.handle
  | Entity.waitable w => w.handle

/-- A numeric tag distinguishing the five entity kinds. -/
def entityKindTag : Entity → Nat
  | Entity.timer _ => 0
  | Entity.subscription _ => 1
  | Entity.service _ => 2
  | Entity.client _ => 3
  | Entity.waitable _ => 4

/-- Strictly ascending keys: the invariant of the `std::map` model that
every map built by `mapInsert` from the empty map satisfies. -/
def KeysSorted {α : Type} (m : List (Nat × α)) : Prop :=
  m.Pairwise (fun a b => a.1 < b.1)

/-- Written after the spec's words, for comparison with
`build_entities_collection`: the groups that contribute entities to a
rebuild — group references that lock successfully and whose admission flag
is true at call time, in input order, paired with their identifier. -/
def contributingGroups (w : World) (gids : List Nat) :
    List (Nat × CallbackGroup) :=
  gids.filterMap (fun gid =>
    match w.groups gid with
    | none => none
    | some g => if g.can_be_taken_from then some (gid, g) else none)

/-- Written after the spec's words, for comparison with
`build_entities_collection`: the `(handle, entry)` pairs of one kind that
the contributing groups supply, in enumeration order. -/
def groupKindEntries {ε : Type} (handleOf : ε → Nat)
    (membersOf : CallbackGroup → List ε) (w : World) (gids : List Nat) :
    List (Nat × CollectionEntry ε) :=
  (contributingGroups w gids).flatMap
    (fun gg => (membersOf gg.2).map (fun e => (handleOf e, ⟨e, gg.1⟩)))

/-! ### Concrete sample data used by witnesses and counterexamples -/

/-- A world in which every group weak reference is expired. -/
def worldNone : World := ⟨fun _ => none⟩

/-- A wait set with all four arrays empty. -/
def wsEmpty : RclWaitSet := ⟨[], [], [], []⟩

/-- Sample subscription with handle 10. -/
def subW : SubscriptionBase := ⟨10, true⟩

/-- Sample timer with handle 11 whose `call()` succeeds. -/
def timW : TimerBase := ⟨11, true, true⟩

/-- Sample service with handle 12. -/
def svcW : ServiceBase := ⟨12, true⟩

/-- Sample client with handle 13. -/
def cliW : ClientBase := ⟨13, true⟩

/-- Sample waitable with handle 14, ready, with payload 42. -/
def waiW : Waitable := ⟨14, true, true, 42⟩

/-- A live group (id 0 in `worldW`) whose admission flag is true and which
owns the five sample entities. -/
def grpReentrant : CallbackGroup := ⟨true, [subW], [svcW], [cliW], [timW], [waiW]⟩

/-- A live group (id 1 in `worldW`) whose admission flag is false. -/
def grpBusy : CallbackGroup := ⟨false, [], [], [], [], []⟩

/-- Sample world: group 0 is live with flag true, group 1 is live with flag
false, every other group reference is expired. -/
def worldW : World :=
  ⟨fun gid => if gid = 0 then some grpReentrant
    else if gid = 1 then some grpBusy else none⟩

/-- Sample collection indexing the five sample entities under group 0. -/
def collW : ExecutorEntitiesCollection :=
  ⟨[(10, ⟨subW, 0⟩)], [(11, ⟨timW, 0⟩)], [], [(13, ⟨cliW, 0⟩)],
    [(12, ⟨svcW, 0⟩)], [(14, ⟨waiW, 0⟩)]⟩

/-- Sample collection like `collW` but with no waitable entries. -/
def collNoWait : ExecutorEntitiesCollection :=
  ⟨[(10, ⟨subW, 0⟩)], [(11, ⟨timW, 0⟩)], [], [(13, ⟨cliW, 0⟩)],
    [(12, ⟨svcW, 0⟩)], []⟩

/-- Sample wait set reporting the four sample handles ready. -/
def wsW : RclWaitSet := ⟨[some 11], [some 10], [some 12], [some 13]⟩

/-- Sample wait set reporting only the sample service handle ready. -/
def wsSvc : RclWaitSet := ⟨[], [], [some 12], []⟩

/-- A subscription with handle 5 belonging to the first group of `worldAB`. -/
def subA : SubscriptionBase := ⟨5, true⟩

/-- A different subscription with the same handle 5, belonging to the second
group of `worldAB`. -/
def subB : SubscriptionBase := ⟨5, false⟩

/-- Group 0 of `worldAB`: live, flag true, owning `subA`. -/
def groupA : CallbackGroup := ⟨true, [subA], [], [], [], []⟩

/-- Group 1 of `worldAB`: live, flag true, owning `subB`. -/
def groupB : CallbackGroup := ⟨true, [subB], [], [], [], []⟩

/-- World with the two live, admitted groups `groupA` and `groupB`. -/
def worldAB : World :=
  ⟨fun gid => if gid = 0 then some groupA
    else if gid = 1 then some groupB else none⟩

/-- A collection whose five entity-kind maps are all empty but whose
guard-condition map is not. -/
def gcCollection : ExecutorEntitiesCollection := ⟨[], [], [(0, ())], [], [], []⟩

/-! ### Characterization of the per-call group cache

The group cache is populated only from the (fixed) world, so every cached
record agrees with a fresh lookup; this is the invariant that lets the loop
characterizations below replace cache lookups by `freshGroupInfo`. -/

/-- Every record in the per-call cache agrees with a fresh lookup in `w`. -/
def CacheConsistent (w : World) (cache : List (Nat × CachedCallbackGroup)) : Prop :=
  ∀ kv ∈ cache, kv.2 = freshGroupInfo w kv.1

lemma cacheConsistent_nil (w : World) : CacheConsistent w [] := by
  intro kv h
  simp at h

lemma mapInsert_forall {α : Type} {P : Nat × α → Prop} {m : List (Nat × α)}
    {k : Nat} {v : α} (hm : ∀ kv ∈ m, P kv) (hkv : P (k, v)) :
    ∀ kv ∈ mapInsert m k v, P kv := by
  induction m with
  | nil =>
    intro kv h
    simp only [mapInsert, List.mem_singleton] at h
    exact h ▸ hkv
  | cons hd rest ih =>
    intro kv h
    obtain ⟨k', v'⟩ := hd
    simp only [mapInsert] at h
    split at h
    · simp only [List.mem_cons] at h
      rcases h with h | h | h
      · exact h ▸ hkv
      · exact hm _ (h ▸ List.mem_cons_self _ _)
      · exact hm _ (List.mem_cons_of_mem _ h)
    · split at h
      · exact hm _ h
      · simp only [List.mem_cons] at h
        rcases h with h | h
        · exact hm _ (h ▸ List.mem_cons_self _ _)
        · exact ih (fun kv hkv => hm _ (List.mem_cons_of_mem _ hkv)) kv h

lemma mapFind_consistent {w : World} {cache : List (Nat × CachedCallbackGroup)}
    {gid : Nat} {info : CachedCallbackGroup} (hc : CacheConsistent w cache)
    (h : mapFind cache gid = some info) : info = freshGroupInfo w gid := by
  induction cache with
  | nil => simp [mapFind] at h
  | cons hd rest ih =>
    obtain ⟨k', v'⟩ := hd
    simp only [mapFind] at h
    by_cases hk : k' = gid
    · rw [if_pos hk] at h
      cases h
      have := hc (k', info) (List.mem_cons_self _ _)
      simpa [hk] using this
    · rw [if_neg hk] at h
      exact ih (fun kv hkv => hc _ (List.mem_cons_of_mem _ hkv)) h

/-- Under the consistency invariant, the cache is semantically transparent:
the record `group_cache` returns is the fresh one. -/
lemma groupCacheLookup_fst {w : World} {cache : List (Nat × CachedCallbackGroup)}
    (hc : CacheConsistent w cache) (gid : Nat) :
    (groupCacheLookup w cache gid).1 = freshGroupInfo w gid := by
  unfold groupCacheLookup
  cases h : mapFind cache gid with
  | none => rfl
  | some info => simpa using mapFind_consistent hc h

/-- A cache lookup preserves the consistency invariant. -/
lemma groupCacheLookup_snd {w : World} {cache : List (Nat × CachedCallbackGroup)}
    (hc : CacheConsistent w cache) (gid : Nat) :
    CacheConsistent w (groupCacheLookup w cache gid).2 := by
  unfold groupCacheLookup
  cases h : mapFind cache gid with
  | none =>
    exact mapInsert_forall hc rfl
  | some info => exact hc

/-! ### Functional characterization of the five resolver loops

`lookupItem`/`waitableItem` state what one loop iteration contributes to the
output deque, with the cache lookup replaced by its fresh value; the fold
lemmas prove that the loops of `ready_executables` append exactly these
items, in order. -/

lemma lookupStep_proj {ε : Type} (w : World) (m : List (Nat × CollectionEntry ε))
    (aliveOf extra : ε → Bool) (mk : ε → Entity) (countIt : Bool)
    (st : ResolveState) (slot : Option Nat) (hc : CacheConsistent w st.cache) :
    (lookupStep w m aliveOf extra mk countIt st slot).executables =
        st.executables ++ (lookupItem w m aliveOf extra mk slot).toList ∧
      (lookupStep w m aliveOf extra mk countIt st slot).added =
        (if countIt then
          st.added + (lookupItem w m aliveOf extra mk slot).toList.length
        else st.added) ∧
      CacheConsistent w (lookupStep w m aliveOf extra mk countIt st slot).cache := by
  cases slot with
  | none =>
    refine ⟨by simp [lookupStep, lookupItem], by cases countIt <;>
      simp [lookupStep, lookupItem], ?_⟩
    simpa [lookupStep] using hc
  | some h =>
    cases hf : mapFind m h with
    | none =>
      refine ⟨by simp [lookupStep, lookupItem, hf], by cases countIt <;>
        simp [lookupStep, lookupItem, hf], ?_⟩
      simpa [lookupStep, hf] using hc
    | some entry =>
      by_cases ha : aliveOf entry.entity
      · have hfst := groupCacheLookup_fst hc entry.callback_group
        have hsnd := groupCacheLookup_snd hc entry.callback_group
        by_cases hskip : ((freshGroupInfo w entry.callback_group).ptr.isSome
            && !(freshGroupInfo w entry.callback_group).can_be_taken_from) = true
        · refine ⟨by simp [lookupStep, lookupItem, hf, ha, hfst, hskip],
            by cases countIt <;> simp [lookupStep, lookupItem, hf, ha, hfst, hskip], ?_⟩
          simpa [lookupStep, hf, ha, hfst, hskip] using hsnd
        · by_cases hex : extra entry.entity
          · refine ⟨by simp [lookupStep, lookupItem, hf, ha, hfst, hskip, hex],
              by cases countIt <;>
                simp [lookupStep, lookupItem, hf, ha, hfst, hskip, hex], ?_⟩
            simpa [lookupStep, hf, ha, hfst, hskip, hex] using hsnd
          · refine ⟨by simp [lookupStep, lookupItem, hf, ha, hfst, hskip, hex],
              by cases countIt <;>
                simp [lookupStep, lookupItem, hf, ha, hfst, hskip, hex], ?_⟩
            simpa [lookupStep, hf, ha, hfst, hskip, hex] using hsnd
      · refine ⟨by simp [lookupStep, lookupItem, hf, ha], by cases countIt <;>
          simp [lookupStep, lookupItem, hf, ha], ?_⟩
        simpa [lookupStep, hf, ha] using hc

lemma lookupFold_proj {ε : Type} (w : World) (m : List (Nat × CollectionEntry ε))
    (aliveOf extra : ε → Bool) (mk : ε → Entity) (countIt : Bool)
    (slots : List (Option Nat)) (st : ResolveState) (hc : CacheConsistent w st.cache) :
    (slots.foldl (lookupStep w m aliveOf extra mk countIt) st).executables =
        st.executables ++ lookupItems w m aliveOf extra mk slots ∧
      (slots.foldl (lookupStep w m aliveOf extra mk countIt) st).added =
        (if countIt then
          st.added + (lookupItems w m aliveOf extra mk slots).length
        else st.added) ∧
      CacheConsistent w (slots.foldl (lookupStep w m aliveOf extra mk countIt) st).cache := by
  induction slots generalizing st with
  | nil => exact ⟨by simp [lookupItems], by cases countIt <;> simp [lookupItems], hc⟩
  | cons slot rest ih =>
    obtain ⟨he, had, hcs⟩ := lookupStep_proj w m aliveOf extra mk countIt st slot hc
    obtain ⟨he2, had2, hcs2⟩ := ih (lookupStep w m aliveOf extra mk countIt st slot) hcs
    rw [List.foldl_cons]
    refine ⟨?_, ?_, hcs2⟩
    · rw [he2, he]
      cases hitem : lookupItem w m aliveOf extra mk slot <;>
        simp [lookupItems, List.filterMap_cons, hitem]
    · rw [had2, had]
      cases hitem : lookupItem w m aliveOf extra mk slot <;> cases countIt <;>
        simp [lookupItems, List.filterMap_cons, hitem] <;> omega

lemma waitableStep_proj (w : World) (st : ResolveState)
    (kv : Nat × CollectionEntry Waitable) (hc : CacheConsistent w st.cache) :
    (waitableStep w st kv).executables =
        st.executables ++ (waitableItem w kv).toList ∧
      (waitableStep w st kv).added = st.added + (waitableItem w kv).toList.length ∧
      CacheConsistent w (waitableStep w st kv).cache := by
  by_cases ha : kv.2.entity.alive
  · by_cases hr : kv.2.entity.isReady
    · have hfst := groupCacheLookup_fst hc kv.2.callback_group
      have hsnd := groupCacheLookup_snd hc kv.2.callback_group
      by_cases hskip : ((freshGroupInfo w kv.2.callback_group).ptr.isSome
          && !(freshGroupInfo w kv.2.callback_group).can_be_taken_from) = true
      · refine ⟨by simp [waitableStep, waitableItem, ha, hr, hfst, hskip],
          by simp [waitableStep, waitableItem, ha, hr, hfst, hskip], ?_⟩
        simpa [waitableStep, ha, hr, hfst, hskip] using hsnd
      · refine ⟨by simp [waitableStep, waitableItem, ha, hr, hfst, hskip],
          by simp [waitableStep, waitableItem, ha, hr, hfst, hskip], ?_⟩
        simpa [waitableStep, ha, hr, hfst, hskip] using hsnd
    · refine ⟨by simp [waitableStep, waitableItem, ha, hr],
        by simp [waitableStep, waitableItem, ha, hr], ?_⟩
      simpa [waitableStep, ha, hr] using hc
  · refine ⟨by simp [waitableStep, waitableItem, ha],
      by simp [waitableStep, waitableItem, ha], ?_⟩
    simpa [waitableStep, ha] using hc

lemma waitableFold_proj (w : World)
    (entries : List (Nat × CollectionEntry Waitable)) (st : ResolveState)
    (hc : CacheConsistent w st.cache) :
    (entries.foldl (waitableStep w) st).executables =
        st.executables ++ waitableItems w entries ∧
      (entries.foldl (waitableStep w) st).added =
        st.added + (waitableItems w entries).length ∧
      CacheConsistent w (entries.foldl (waitableStep w) st).cache := by
  induction entries generalizing st with
  | nil => exact ⟨by simp [waitableItems], by simp [waitableItems], hc⟩
  | cons kv rest ih =>
    obtain ⟨he, had, hcs⟩ := waitableStep_proj w st kv hc
    obtain ⟨he2, had2, hcs2⟩ := ih (waitableStep w st kv) hcs
    rw [List.foldl_cons]
    refine ⟨?_, ?_, hcs2⟩
    · rw [he2, he]
      cases hitem : waitableItem w kv <;>
        simp [waitableItems, List.filterMap_cons, hitem]
    · rw [had2, had]
      cases hitem : waitableItem w kv <;>
        simp [waitableItems, List.filterMap_cons, hitem] <;> omega

/-- Functional characterization of `ready_executables` on a `Ready` wait
result: the output deque is extended, in order, by the timer, subscription,
service, client and waitable items, and the returned count totals every
kind's items except the service items. -/
lemma ready_executables_ready (w : World) (coll : ExecutorEntitiesCollection)
    (ws : RclWaitSet) (exec : List AnyExecutable) :
    ready_executables w coll ⟨WaitResultKind.Ready, ws⟩ exec =
      ((timerItems w coll ws.timers).length
        + (subscriptionItems w coll ws.subscriptions).length
        + (clientItems w coll ws.clients).length
        + (waitableItems w coll.waitables).length,
       exec ++ timerItems w coll ws.timers
         ++ subscriptionItems w coll ws.subscriptions
         ++ serviceItems w coll ws.services
         ++ clientItems w coll ws.clients
         ++ waitableItems w coll.waitables) := by
  obtain ⟨he1, ha1, hc1⟩ := lookupFold_proj w coll.timers TimerBase.alive
    TimerBase.callResult Entity.timer true ws.timers ⟨[], exec, 0⟩ (cacheConsistent_nil w)
  obtain ⟨he2, ha2, hc2⟩ := lookupFold_proj w coll.subscriptions SubscriptionBase.alive
    (fun _ => true) Entity.subscription true ws.subscriptions _ hc1
  obtain ⟨he3, ha3, hc3⟩ := lookupFold_proj w coll.services ServiceBase.alive
    (fun _ => true) Entity.service false ws.services _ hc2
  obtain ⟨he4, ha4, hc4⟩ := lookupFold_proj w coll.clients ClientBase.alive
    (fun _ => true) Entity.client true ws.clients _ hc3
  obtain ⟨he5, ha5, hc5⟩ := waitableFold_proj w coll.waitables _ hc4
  have hunfold : ready_executables w coll ⟨WaitResultKind.Ready, ws⟩ exec =
      ((coll.waitables.foldl (waitableStep w)
        (ws.clients.foldl
          (lookupStep w coll.clients ClientBase.alive (fun _ => true) Entity.client true)
          (ws.services.foldl
            (lookupStep w coll.services ServiceBase.alive (fun _ => true) Entity.service false)
            (ws.subscriptions.foldl
              (lookupStep w coll.subscriptions SubscriptionBase.alive (fun _ => true)
                Entity.subscription true)
              (ws.timers.foldl
                (lookupStep w coll.timers TimerBase.alive TimerBase.callResult
                  Entity.timer true)
                ⟨[], exec, 0⟩))))).added,
       (coll.waitables.foldl (waitableStep w)
        (ws.clients.foldl
          (lookupStep w coll.clients ClientBase.alive (fun _ => true) Entity.client true)
          (ws.services.foldl
            (lookupStep w coll.services ServiceBase.alive (fun _ => true) Entity.service false)
            (ws.subscriptions.foldl
              (lookupStep w coll.subscriptions SubscriptionBase.alive (fun _ => true)
                Entity.subscription true)
              (ws.timers.foldl
                (lookupStep w coll.timers TimerBase.alive TimerBase.callResult
                  Entity.timer true)
                ⟨[], exec, 0⟩))))).executables) := rfl
  rw [hunfold, Prod.ext_iff]
  refine ⟨?_, ?_⟩
  · rw [ha5, ha4, ha3, ha2, ha1]
    simp [timerItems, subscriptionItems, clientItems]
  · rw [he5, he4, he3, he2, he1]
    simp [timerItems, subscriptionItems, serviceItems, clientItems, List.append_assoc]

/-! ### Claim theorems -/

/-- C2: for every poll result whose kind is not `Ready` (timed out or
errored), `ready_executables` returns zero and appends no work item to the
output deque; this is the normal no-work result, not a raised error. -/
theorem C2_not_ready_yields_no_work (w : World) (coll : ExecutorEntitiesCollection)
    (wr : WaitResult) (exec : List AnyExecutable)
    (h : wr.kind ≠ WaitResultKind.Ready) :
    ready_executables w coll wr exec = (0, exec) := by
  unfold ready_executables
  rw [if_pos h]

theorem C2_not_ready_yields_no_work_witness :
    (WaitResultKind.Timeout ≠ WaitResultKind.Ready) ∧
      ready_executables worldNone emptyCollection
        ⟨WaitResultKind.Timeout, wsEmpty⟩ [] = (0, []) :=
  ⟨by decide, C2_not_ready_yields_no_work worldNone emptyCollection
    ⟨WaitResultKind.Timeout, wsEmpty⟩ [] (by decide)⟩

/-- C8 counterexample: the collection has a sixth map (guard conditions);
`empty()` is false for a collection whose five entity-kind maps are all
empty but whose guard-condition map is not, refuting "empty iff all five
are empty". -/
theorem C8_counterexample :
    gcCollection.subscriptions.isEmpty = true ∧
      gcCollection.timers.isEmpty = true ∧
      gcCollection.services.isEmpty = true ∧
      gcCollection.clients.isEmpty = true ∧
      gcCollection.waitables.isEmpty = true ∧
      gcCollection.empty = false := by decide

/-- C8 (amended): the collection consists of exactly six mappings — one per
entity kind plus guard conditions — and `empty()` is true iff all six are
empty. -/
theorem C8_empty_iff_all_six_empty (c : ExecutorEntitiesCollection) :
    c.empty = true ↔
      (c.subscriptions.isEmpty = true ∧ c.timers.isEmpty = true ∧
        c.guard_conditions.isEmpty = true ∧ c.clients.isEmpty = true ∧
        c.services.isEmpty = true ∧ c.waitables.isEmpty = true) := by
  simp [ExecutorEntitiesCollection.empty, and_assoc]

/-- C9: rebuilding twice over an unchanged world produces index mappings
with the same handles as rebuilding once — rebuild clears first, so its
result never depends on the prior collection state. -/
theorem C9_rebuild_idempotent (w : World) (gids : List Nat)
    (c : ExecutorEntitiesCollection) (h : Nat) :
    (h ∈ (build_entities_collection w gids
        (build_entities_collection w gids c)).subscriptions.map Prod.fst ↔
      h ∈ (build_entities_collection w gids c).subscriptions.map Prod.fst) ∧
    (h ∈ (build_entities_collection w gids
        (build_entities_collection w gids c)).timers.map Prod.fst ↔
      h ∈ (build_entities_collection w gids c).timers.map Prod.fst) ∧
    (h ∈ (build_entities_collection w gids
        (build_entities_collection w gids c)).services.map Prod.fst ↔
      h ∈ (build_entities_collection w gids c).services.map Prod.fst) ∧
    (h ∈ (build_entities_collection w gids
        (build_entities_collection w gids c)).clients.map Prod.fst ↔
      h ∈ (build_entities_collection w gids c).clients.map Prod.fst) ∧
    (h ∈ (build_entities_collection w gids
        (build_entities_collection w gids c)).waitables.map Prod.fst ↔
      h ∈ (build_entities_collection w gids c).waitables.map Prod.fst) :=
  ⟨Iff.rfl, Iff.rfl, Iff.rfl, Iff.rfl, Iff.rfl⟩

/-- C4: on a `Ready` poll result the output deque is extended in the fixed
kind order timers, subscriptions, services, clients, waitables; within each
of the first four kinds the items follow the order the wait set reports the
handles (each `...Items` list is an order-preserving `filterMap` over the
slots), and the result is exactly this insertion order — no reordering or
deduplication pass follows. -/
theorem C4_resolution_order (w : World) (coll : ExecutorEntitiesCollection)
    (wr : WaitResult) (exec : List AnyExecutable)
    (h : wr.kind = WaitResultKind.Ready) :
    (ready_executables w coll wr exec).2 =
      exec ++ timerItems w coll wr.waitSet.timers
        ++ subscriptionItems w coll wr.waitSet.subscriptions
        ++ serviceItems w coll wr.waitSet.services
        ++ clientItems w coll wr.waitSet.clients
        ++ waitableItems w coll.waitables := by
  cases wr with
  | mk k ws =>
    cases k with
    | Ready => simp [ready_executables_ready]
    | Timeout => simp at h
    | Empty => simp at h

theorem C4_resolution_order_witness :
    ((⟨WaitResultKind.Ready, wsW⟩ : WaitResult).kind = WaitResultKind.Ready) ∧
      (ready_executables worldW collW ⟨WaitResultKind.Ready, wsW⟩ []).2 =
        [] ++ timerItems worldW collW wsW.timers
          ++ subscriptionItems worldW collW wsW.subscriptions
          ++ serviceItems worldW collW wsW.services
          ++ clientItems worldW collW wsW.clients
          ++ waitableItems worldW collW.waitables :=
  ⟨rfl, C4_resolution_order worldW collW ⟨WaitResultKind.Ready, wsW⟩ [] rfl⟩

/-- C1: admission asymmetry of `ready_executables` — a looked-up, live ready
entity (here: a timer passing its `call()` check, and a subscription) is
skipped only when its owning group is live with admission flag false; when
the group weak reference is expired the entity is admitted unconditionally
(with a null group), and when the group is live with flag true it is
admitted with the group attached. -/
theorem C1_admission_asymmetry (w : World) (coll : ExecutorEntitiesCollection)
    (hnw : coll.waitables = []) (h : Nat) (exec : List AnyExecutable) :
    (∀ entry : CollectionEntry TimerBase, mapFind coll.timers h = some entry →
      entry.entity.alive = true → entry.entity.callResult = true →
      ((w.groups entry.callback_group = none →
          ready_executables w coll ⟨WaitResultKind.Ready, ⟨[some h], [], [], []⟩⟩ exec =
            (1, exec ++ [⟨Entity.timer entry.entity, none, none⟩])) ∧
        (∀ g, w.groups entry.callback_group = some g → g.can_be_taken_from = true →
          ready_executables w coll ⟨WaitResultKind.Ready, ⟨[some h], [], [], []⟩⟩ exec =
            (1, exec ++ [⟨Entity.timer entry.entity, some entry.callback_group, none⟩])) ∧
        (∀ g, w.groups entry.callback_group = some g → g.can_be_taken_from = false →
          ready_executables w coll ⟨WaitResultKind.Ready, ⟨[some h], [], [], []⟩⟩ exec =
            (0, exec)))) ∧
    (∀ entry : CollectionEntry SubscriptionBase,
      mapFind coll.subscriptions h = some entry → entry.entity.alive = true →
      ((w.groups entry.callback_group = none →
          ready_executables w coll ⟨WaitResultKind.Ready, ⟨[], [some h], [], []⟩⟩ exec =
            (1, exec ++ [⟨Entity.subscription entry.entity, none, none⟩])) ∧
        (∀ g, w.groups entry.callback_group = some g → g.can_be_taken_from = true →
          ready_executables w coll ⟨WaitResultKind.Ready, ⟨[], [some h], [], []⟩⟩ exec =
            (1, exec ++
              [⟨Entity.subscription entry.entity, some entry.callback_group, none⟩])) ∧
        (∀ g, w.groups entry.callback_group = some g → g.can_be_taken_from = false →
          ready_executables w coll ⟨WaitResultKind.Ready, ⟨[], [some h], [], []⟩⟩ exec =
            (0, exec)))) := by
  constructor
  · intro entry hfind halive hcall
    refine ⟨fun hg => ?_, fun g hg hflag => ?_, fun g hg hflag => ?_⟩ <;>
      rw [ready_executables_ready] <;>
        simp [timerItems, subscriptionItems, serviceItems, clientItems, waitableItems,
          lookupItems, lookupItem, hfind, halive, hcall, freshGroupInfo, hg, hnw, *]
  · intro entry hfind halive
    refine ⟨fun hg => ?_, fun g hg hflag => ?_, fun g hg hflag => ?_⟩ <;>
      rw [ready_executables_ready] <;>
        simp [timerItems, subscriptionItems, serviceItems, clientItems, waitableItems,
          lookupItems, lookupItem, hfind, halive, freshGroupInfo, hg, hnw, *]

theorem C1_admission_asymmetry_witness :
    (collNoWait.waitables = []) ∧
      (mapFind collNoWait.subscriptions 10 = some ⟨subW, 0⟩) ∧
      (subW.alive = true) ∧
      (worldW.groups 0 = some grpReentrant) ∧
      (grpReentrant.can_be_taken_from = true) ∧
      ready_executables worldW collNoWait
          ⟨WaitResultKind.Ready, ⟨[], [some 10], [], []⟩⟩ [] =
        (1, [] ++ [⟨Entity.subscription subW, some 0, none⟩]) :=
  ⟨rfl, rfl, rfl, rfl, rfl,
    ((C1_admission_asymmetry worldW collNoWait rfl 10 []).2 ⟨subW, 0⟩ rfl rfl).2.1
      grpReentrant rfl rfl⟩

/-- C5: for a ready timer that passes lookup, liveness and admission,
`ready_executables` additionally requires `call()` to succeed: if it returns
false the timer is skipped and no work item is produced; if it returns true
a work item carrying the timer and its (possibly null) group, with no
payload, is appended. -/
theorem C5_timer_attempt_fire (w : World) (coll : ExecutorEntitiesCollection)
    (hnw : coll.waitables = []) (h : Nat) (exec : List AnyExecutable)
    (entry : CollectionEntry TimerBase)
    (hfind : mapFind coll.timers h = some entry)
    (halive : entry.entity.alive = true)
    (hadm : ∀ g, w.groups entry.callback_group = some g →
      g.can_be_taken_from = true) :
    (entry.entity.callResult = false →
      ready_executables w coll ⟨WaitResultKind.Ready, ⟨[some h], [], [], []⟩⟩ exec =
        (0, exec)) ∧
    (entry.entity.callResult = true →
      ready_executables w coll ⟨WaitResultKind.Ready, ⟨[some h], [], [], []⟩⟩ exec =
        (1, exec ++ [⟨Entity.timer entry.entity,
          (freshGroupInfo w entry.callback_group).ptr, none⟩])) := by
  cases hg : w.groups entry.callback_group with
  | none =>
    constructor <;> intro hcall <;> rw [ready_executables_ready] <;>
      simp [timerItems, subscriptionItems, serviceItems, clientItems, waitableItems,
        lookupItems, lookupItem, hfind, halive, hcall, freshGroupInfo, hg, hnw]
  | some g =>
    have hflag := hadm g hg
    constructor <;> intro hcall <;> rw [ready_executables_ready] <;>
      simp [timerItems, subscriptionItems, serviceItems, clientItems, waitableItems,
        lookupItems, lookupItem, hfind, halive, hcall, freshGroupInfo, hg, hflag, hnw]

theorem C5_timer_attempt_fire_witness :
    (collNoWait.waitables = []) ∧
      (mapFind collNoWait.timers 11 = some ⟨timW, 0⟩) ∧
      (timW.alive = true) ∧ (timW.callResult = true) ∧
      ready_executables worldW collNoWait
          ⟨WaitResultKind.Ready, ⟨[some 11], [], [], []⟩⟩ [] =
        (1, [] ++ [⟨Entity.timer timW, (freshGroupInfo worldW 0).ptr, none⟩]) :=
  ⟨rfl, rfl, rfl, rfl,
    (C5_timer_attempt_fire worldW collNoWait rfl 11 [] ⟨timW, 0⟩ rfl rfl
      (by
        intro g hg
        have h1 : some grpReentrant = some g := hg
        injection h1 with h2
        subst h2
        rfl)).2 rfl⟩

/-- C6: waitables are resolved by iterating every index entry of the
waitable map (not by a handle lookup): on a `Ready` result with no ready
handles of the other kinds the output is exactly the waitable items, and for
each entry the entity is locked, `is_ready` is consulted, admission follows
the same group rule, and the `take_data()` payload is attached to the
produced work item; a ready waitable whose owning group is destroyed yields
a work item with its payload and a null group. -/
theorem C6_waitable_resolution (w : World) (coll : ExecutorEntitiesCollection)
    (exec : List AnyExecutable) :
    (ready_executables w coll ⟨WaitResultKind.Ready, wsEmpty⟩ exec =
      ((waitableItems w coll.waitables).length,
        exec ++ waitableItems w coll.waitables)) ∧
    (∀ kv : Nat × CollectionEntry Waitable,
      (kv.2.entity.alive = false → waitableItem w kv = none) ∧
      (kv.2.entity.alive = true → kv.2.entity.isReady = false →
        waitableItem w kv = none) ∧
      (kv.2.entity.alive = true → kv.2.entity.isReady = true →
        w.groups kv.2.callback_group = none →
        waitableItem w kv = some ⟨Entity.waitable kv.2.entity, none,
          some kv.2.entity.takeData⟩) ∧
      (∀ g, kv.2.entity.alive = true → kv.2.entity.isReady = true →
        w.groups kv.2.callback_group = some g → g.can_be_taken_from = true →
        waitableItem w kv = some ⟨Entity.waitable kv.2.entity,
          some kv.2.callback_group, some kv.2.entity.takeData⟩) ∧
      (∀ g, kv.2.entity.alive = true → kv.2.entity.isReady = true →
        w.groups kv.2.callback_group = some g → g.can_be_taken_from = false →
        waitableItem w kv = none)) := by
  constructor
  · rw [ready_executables_ready]
    simp [timerItems, subscriptionItems, serviceItems, clientItems, lookupItems,
      wsEmpty]
  · intro kv
    refine ⟨fun ha => ?_, fun ha hr => ?_, fun ha hr hg => ?_,
      fun g ha hr hg hflag => ?_, fun g ha hr hg hflag => ?_⟩ <;>
      simp [waitableItem, freshGroupInfo, *]

theorem C6_waitable_resolution_witness :
    (waiW.alive = true) ∧ (waiW.isReady = true) ∧ (worldW.groups 9 = none) ∧
      waitableItem worldW (14, ⟨waiW, 9⟩) =
        some ⟨Entity.waitable waiW, none, some 42⟩ :=
  ⟨rfl, rfl, rfl,
    ((C6_waitable_resolution worldW collW []).2 (14, ⟨waiW, 9⟩)).2.2.1 rfl rfl rfl⟩

/-- C10 (implicit): the value `ready_executables` returns counts only the
timer, subscription, client and waitable items, not the service items, while
all five kinds are appended to the deque; whenever at least one service item
is appended the returned count is strictly less than the number of appended
work items. -/
theorem C10_service_items_not_counted (w : World)
    (coll : ExecutorEntitiesCollection) (ws : RclWaitSet)
    (exec : List AnyExecutable) :
    ((ready_executables w coll ⟨WaitResultKind.Ready, ws⟩ exec).1 =
      (timerItems w coll ws.timers).length
        + (subscriptionItems w coll ws.subscriptions).length
        + (clientItems w coll ws.clients).length
        + (waitableItems w coll.waitables).length) ∧
    ((ready_executables w coll ⟨WaitResultKind.Ready, ws⟩ exec).2.length =
      exec.length + (ready_executables w coll ⟨WaitResultKind.Ready, ws⟩ exec).1
        + (serviceItems w coll ws.services).length) ∧
    (serviceItems w coll ws.services ≠ [] →
      (ready_executables w coll ⟨WaitResultKind.Ready, ws⟩ exec).1 <
        (ready_executables w coll ⟨WaitResultKind.Ready, ws⟩ exec).2.length
          - exec.length) := by
  rw [ready_executables_ready]
  refine ⟨rfl, ?_, fun hne => ?_⟩
  · simp [List.length_append]
    omega
  · have hpos : 0 < (serviceItems w coll ws.services).length :=
      List.length_pos.mpr hne
    simp [List.length_append]
    omega

theorem C10_service_items_not_counted_witness :
    (serviceItems worldW collW wsSvc.services ≠ []) ∧
      (ready_executables worldW collW ⟨WaitResultKind.Ready, wsSvc⟩ []).1 <
        (ready_executables worldW collW ⟨WaitResultKind.Ready, wsSvc⟩ []).2.length
          - ([] : List AnyExecutable).length :=
  ⟨by decide,
    (C10_service_items_not_counted worldW collW wsSvc []).2.2 (by decide)⟩

/-! ### No duplicate work items: machinery for C7 -/

lemma mapFind_mem {α : Type} {m : List (Nat × α)} {k : Nat} {v : α}
    (h : mapFind m k = some v) : (k, v) ∈ m := by
  induction m with
  | nil => simp [mapFind] at h
  | cons hd rest ih =>
    obtain ⟨k', v'⟩ := hd
    simp only [mapFind] at h
    by_cases hk : k' = k
    · rw [if_pos hk] at h
      injection h with h2
      subst hk
      subst h2
      exact List.mem_cons_self _ _
    · rw [if_neg hk] at h
      exact List.mem_cons_of_mem _ (ih h)

lemma lookupItem_some_shape {ε : Type} {w : World} {m : List (Nat × CollectionEntry ε)}
    {aliveOf extra : ε → Bool} {mk : ε → Entity} {slot : Option Nat}
    {item : AnyExecutable} (hit : lookupItem w m aliveOf extra mk slot = some item) :
    ∃ hh entry, slot = some hh ∧ mapFind m hh = some entry ∧
      item.entity = mk entry.entity := by
  cases slot with
  | none => simp [lookupItem] at hit
  | some hh =>
    cases hf : mapFind m hh with
    | none => simp [lookupItem, hf] at hit
    | some entry =>
      simp only [lookupItem, hf] at hit
      split at hit
      · split at hit
        · simp at hit
        · split at hit
          · injection hit with h2
            exact ⟨hh, entry, rfl, hf, by rw [← h2]⟩
          · simp at hit
      · simp at hit

lemma waitableItem_some_entity {w : World} {kv : Nat × CollectionEntry Waitable}
    {item : AnyExecutable} (hit : waitableItem w kv = some item) :
    item.entity = Entity.waitable kv.2.entity := by
  simp only [waitableItem] at hit
  split at hit
  · split at hit
    · split at hit
      · simp at hit
      · injection hit with h2
        rw [← h2]
    · simp at hit
  · simp at hit

lemma lookupItems_handles_sublist {ε : Type} (w : World)
    (m : List (Nat × CollectionEntry ε)) (aliveOf extra : ε → Bool)
    (mk : ε → Entity) (handleOf : ε → Nat)
    (hcons : ∀ kv ∈ m, handleOf kv.2.entity = kv.1)
    (hmk : ∀ e, entityHandle (mk e) = handleOf e)
    (slots : List (Option Nat)) :
    List.Sublist
      ((lookupItems w m aliveOf extra mk slots).map (fun a => entityHandle a.entity))
      (slots.filterMap id) := by
  induction slots with
  | nil => simp [lookupItems]
  | cons slot rest ih =>
    cases hit : lookupItem w m aliveOf extra mk slot with
    | none =>
      cases slot with
      | none => simpa [lookupItems, List.filterMap_cons, hit] using ih
      | some hh =>
        simp only [lookupItems, List.filterMap_cons, hit, id]
        exact List.Sublist.cons hh ih
    | some item =>
      obtain ⟨hh, entry, hslot, hf, hent⟩ := lookupItem_some_shape hit
      subst hslot
      have hhandle : entityHandle item.entity = hh := by
        rw [hent, hmk, hcons (hh, entry) (mapFind_mem hf)]
      simp only [lookupItems, List.filterMap_cons, hit, id, List.map_cons, hhandle]
      exact List.Sublist.cons₂ hh ih

lemma waitableItems_handles_sublist (w : World)
    (entries : List (Nat × CollectionEntry Waitable))
    (hcons : ∀ kv ∈ entries, kv.2.entity.handle = kv.1) :
    List.Sublist
      ((waitableItems w entries).map (fun a => entityHandle a.entity))
      (entries.map Prod.fst) := by
  induction entries with
  | nil => simp [waitableItems]
  | cons kv rest ih =>
    have hcons2 : ∀ kv2 ∈ rest, kv2.2.entity.handle = kv2.1 :=
      fun kv2 h2 => hcons kv2 (List.mem_cons_of_mem _ h2)
    cases hit : waitableItem w kv with
    | none =>
      simp only [waitableItems, List.filterMap_cons, hit, List.map_cons]
      exact List.Sublist.cons kv.1 (ih hcons2)
    | some item =>
      have hhandle : entityHandle item.entity = kv.1 := by
        rw [waitableItem_some_entity hit]
        exact hcons kv (List.mem_cons_self _ _)
      simp only [waitableItems, List.filterMap_cons, hit, List.map_cons, hhandle]
      exact List.Sublist.cons₂ kv.1 (ih hcons2)

lemma lookupItems_tag {ε : Type} (w : World) (m : List (Nat × CollectionEntry ε))
    (aliveOf extra : ε → Bool) (mk : ε → Entity) (slots : List (Option Nat))
    (t : Nat) (htag : ∀ e : ε, entityKindTag (mk e) = t) :
    ∀ a ∈ lookupItems w m aliveOf extra mk slots, entityKindTag a.entity = t := by
  intro a ha
  rw [lookupItems, List.mem_filterMap] at ha
  obtain ⟨slot, _, hit⟩ := ha
  obtain ⟨hh, entry, _, _, hent⟩ := lookupItem_some_shape hit
  rw [hent, htag]

lemma waitableItems_tag (w : World)
    (entries : List (Nat × CollectionEntry Waitable)) :
    ∀ a ∈ waitableItems w entries, entityKindTag a.entity = 4 := by
  intro a ha
  rw [waitableItems, List.mem_filterMap] at ha
  obtain ⟨kv, _, hit⟩ := ha
  rw [waitableItem_some_entity hit]
  rfl

lemma nodup_entities_of_handles {l : List AnyExecutable}
    (h : (l.map (fun a => entityHandle a.entity)).Nodup) :
    (l.map AnyExecutable.entity).Nodup := by
  rw [show l.map (fun a => entityHandle a.entity) =
    (l.map AnyExecutable.entity).map entityHandle by simp [List.map_map]] at h
  exact List.Nodup.of_map _ h

lemma disjoint_entities_of_tags {l1 l2 : List AnyExecutable} {t1 t2 : Nat}
    (h1 : ∀ a ∈ l1, entityKindTag a.entity = t1)
    (h2 : ∀ a ∈ l2, entityKindTag a.entity = t2) (hne : t1 ≠ t2) :
    (l1.map AnyExecutable.entity).Disjoint (l2.map AnyExecutable.entity) := by
  intro x hx1 hx2
  rw [List.mem_map] at hx1 hx2
  obtain ⟨a1, ha1, rfl⟩ := hx1
  obtain ⟨a2, ha2, he⟩ := hx2
  apply hne
  rw [← h1 a1 ha1, ← he]
  exact h2 a2 ha2

/-- C7: within one `ready_executables` call over a well-formed index (every
entry is keyed by its own entity's handle, as `build_entities_collection`
guarantees) and a poll result reporting each ready handle at most once (the
wait set is a signaled-handle set), no two appended work items carry the
same entity: each ready handle — and, for waitables, each index entry — is
visited exactly once. -/
theorem C7_no_duplicate_work_items (w : World) (coll : ExecutorEntitiesCollection)
    (ws : RclWaitSet) (exec : List AnyExecutable)
    (hct : ∀ kv ∈ coll.timers, kv.2.entity.handle = kv.1)
    (hcs : ∀ kv ∈ coll.subscriptions, kv.2.entity.handle = kv.1)
    (hcv : ∀ kv ∈ coll.services, kv.2.entity.handle = kv.1)
    (hcc : ∀ kv ∈ coll.clients, kv.2.entity.handle = kv.1)
    (hcw : ∀ kv ∈ coll.waitables, kv.2.entity.handle = kv.1)
    (hnt : (ws.timers.filterMap id).Nodup)
    (hns : (ws.subscriptions.filterMap id).Nodup)
    (hnv : (ws.services.filterMap id).Nodup)
    (hnc : (ws.clients.filterMap id).Nodup)
    (hnw : (coll.waitables.map Prod.fst).Nodup) :
    (((ready_executables w coll ⟨WaitResultKind.Ready, ws⟩ exec).2.drop
      exec.length).map AnyExecutable.entity).Nodup := by
  have nT : ((timerItems w coll ws.timers).map AnyExecutable.entity).Nodup :=
    nodup_entities_of_handles
      ((hnt.sublist (lookupItems_handles_sublist w coll.timers TimerBase.alive
        TimerBase.callResult Entity.timer TimerBase.handle hct (fun e => rfl)
        ws.timers)))
  have nS : ((subscriptionItems w coll ws.subscriptions).map AnyExecutable.entity).Nodup :=
    nodup_entities_of_handles
      ((hns.sublist (lookupItems_handles_sublist w coll.subscriptions
        SubscriptionBase.alive (fun _ => true) Entity.subscription
        SubscriptionBase.handle hcs (fun e => rfl) ws.subscriptions)))
  have nV : ((serviceItems w coll ws.services).map AnyExecutable.entity).Nodup :=
    nodup_entities_of_handles
      ((hnv.sublist (lookupItems_handles_sublist w coll.services ServiceBase.alive
        (fun _ => true) Entity.service ServiceBase.handle hcv (fun e => rfl)
        ws.services)))
  have nC : ((clientItems w coll ws.clients).map AnyExecutable.entity).Nodup :=
    nodup_entities_of_handles
      ((hnc.sublist (lookupItems_handles_sublist w coll.clients ClientBase.alive
        (fun _ => true) Entity.client ClientBase.handle hcc (fun e => rfl)
        ws.clients)))
  have nW : ((waitableItems w coll.waitables).map AnyExecutable.entity).Nodup :=
    nodup_entities_of_handles
      ((hnw.sublist (waitableItems_handles_sublist w coll.waitables hcw)))
  have tT : ∀ a ∈ timerItems w coll ws.timers, entityKindTag a.entity = 0 :=
    lookupItems_tag w coll.timers TimerBase.alive TimerBase.callResult Entity.timer
      ws.timers 0 (fun e => rfl)
  have tS : ∀ a ∈ subscriptionItems w coll ws.subscriptions,
      entityKindTag a.entity = 1 :=
    lookupItems_tag w coll.subscriptions SubscriptionBase.alive (fun _ => true)
      Entity.subscription ws.subscriptions 1 (fun e => rfl)
  have tV : ∀ a ∈ serviceItems w coll ws.services, entityKindTag a.entity = 2 :=
    lookupItems_tag w coll.services ServiceBase.alive (fun _ => true)
      Entity.service ws.services 2 (fun e => rfl)
  have tC : ∀ a ∈ clientItems w coll ws.clients, entityKindTag a.entity = 3 :=
    lookupItems_tag w coll.clients ClientBase.alive (fun _ => true)
      Entity.client ws.clients 3 (fun e => rfl)
  have tW : ∀ a ∈ waitableItems w coll.waitables, entityKindTag a.entity = 4 :=
    waitableItems_tag w coll.waitables
  rw [ready_executables_ready]
  have hdrop : ((exec ++ timerItems w coll ws.timers
      ++ subscriptionItems w coll ws.subscriptions
      ++ serviceItems w coll ws.services
      ++ clientItems w coll ws.clients
      ++ waitableItems w coll.waitables).drop exec.length) =
      timerItems w coll ws.timers ++ (subscriptionItems w coll ws.subscriptions
        ++ (serviceItems w coll ws.services ++ (clientItems w coll ws.clients
          ++ waitableItems w coll.waitables))) := by
    simp [List.append_assoc, List.drop_left]
  show (((exec ++ timerItems w coll ws.timers
      ++ subscriptionItems w coll ws.subscriptions
      ++ serviceItems w coll ws.services
      ++ clientItems w coll ws.clients
      ++ waitableItems w coll.waitables).drop exec.length).map
        AnyExecutable.entity).Nodup
  rw [hdrop]
  simp only [List.map_append]
  exact (nT.append
    (nS.append
      (nV.append
        (nC.append nW (disjoint_entities_of_tags tC tW (by decide)))
        (List.disjoint_append_right.mpr
          ⟨disjoint_entities_of_tags tV tC (by decide),
            disjoint_entities_of_tags tV tW (by decide)⟩))
      (List.disjoint_append_right.mpr
        ⟨disjoint_entities_of_tags tS tV (by decide),
          List.disjoint_append_right.mpr
            ⟨disjoint_entities_of_tags tS tC (by decide),
              disjoint_entities_of_tags tS tW (by decide)⟩⟩))
    (List.disjoint_append_right.mpr
      ⟨disjoint_entities_of_tags tT tS (by decide),
        List.disjoint_append_right.mpr
          ⟨disjoint_entities_of_tags tT tV (by decide),
            List.disjoint_append_right.mpr
              ⟨disjoint_entities_of_tags tT tC (by decide),
                disjoint_entities_of_tags tT tW (by decide)⟩⟩⟩))

theorem C7_no_duplicate_work_items_witness :
    ((wsW.timers.filterMap id).Nodup ∧ (wsW.subscriptions.filterMap id).Nodup ∧
      (wsW.services.filterMap id).Nodup ∧ (wsW.clients.filterMap id).Nodup ∧
      (collW.waitables.map Prod.fst).Nodup) ∧
      (((ready_executables worldW collW ⟨WaitResultKind.Ready, wsW⟩ []).2.drop
        ([] : List AnyExecutable).length).map AnyExecutable.entity).Nodup :=
  ⟨by decide,
    C7_no_duplicate_work_items worldW collW wsW [] (by decide) (by decide)
      (by decide) (by decide) (by decide) (by decide) (by decide) (by decide)
      (by decide) (by decide)⟩

/-! ### Rebuild characterization: machinery for C3 -/

lemma mapFind_eq_none_iff {α : Type} {m : List (Nat × α)} {h : Nat} :
    mapFind m h = none ↔ ∀ kv ∈ m, kv.1 ≠ h := by
  induction m with
  | nil => simp [mapFind]
  | cons hd rest ih =>
    obtain ⟨k', v'⟩ := hd
    by_cases hk : k' = h
    · simp [mapFind, hk]
    · simp [mapFind, hk, ih]

lemma mapFind_mapInsert {α : Type} {m : List (Nat × α)} (hs : KeysSorted m)
    (k h : Nat) (v : α) :
    mapFind (mapInsert m k v) h =
      match mapFind m h with
      | some x => some x
      | none => if h = k then some v else none := by
  induction m with
  | nil =>
    simp only [mapInsert, mapFind]
    by_cases hk : k = h
    · subst hk
      simp
    · rw [if_neg hk, if_neg (fun hc : h = k => hk hc.symm)]
  | cons hd rest ih =>
    obtain ⟨k', v'⟩ := hd
    have hs2 : KeysSorted rest := (List.pairwise_cons.mp hs).2
    have hlt : ∀ kv ∈ rest, k' < kv.1 := (List.pairwise_cons.mp hs).1
    simp only [mapInsert]
    rcases lt_trichotomy k k' with hkk | hkk | hkk
    · rw [if_pos hkk]
      by_cases hh : k = h
      · subst hh
        have hnone : mapFind ((k', v') :: rest) k = none := by
          rw [mapFind_eq_none_iff]
          intro kv hkv hc
          rcases List.mem_cons.mp hkv with h1 | h1
          · subst h1
            simp at hc
            omega
          · have := hlt kv h1
            omega
        rw [hnone]
        simp [mapFind]
      · have hL : mapFind ((k, v) :: (k', v') :: rest) h =
            mapFind ((k', v') :: rest) h := by
          simp [mapFind, hh]
        rw [hL]
        cases hmf : mapFind ((k', v') :: rest) h with
        | some x => rfl
        | none =>
          show none = if h = k then some v else none
          rw [if_neg (fun hc : h = k => hh hc.symm)]
    · rw [if_neg (by omega), if_pos hkk]
      cases hmf : mapFind ((k', v') :: rest) h with
      | some x => rfl
      | none =>
        have hne : k' ≠ h :=
          by simpa using mapFind_eq_none_iff.mp hmf (k', v') (List.mem_cons_self _ _)
        show none = if h = k then some v else none
        rw [if_neg (fun hc : h = k => hne (by omega))]
    · rw [if_neg (by omega), if_neg (by omega)]
      simp only [mapFind]
      by_cases hh : k' = h
      · simp [hh]
      · rw [if_neg hh, if_neg hh]
        exact ih hs2

lemma mapInsert_sorted {α : Type} {m : List (Nat × α)} (hs : KeysSorted m)
    (k : Nat) (v : α) : KeysSorted (mapInsert m k v) := by
  induction m with
  | nil => simp [mapInsert, KeysSorted]
  | cons hd rest ih =>
    obtain ⟨k', v'⟩ := hd
    obtain ⟨hlt, hs2⟩ := List.pairwise_cons.mp hs
    simp only [mapInsert]
    rcases lt_trichotomy k k' with hkk | hkk | hkk
    · rw [if_pos hkk]
      refine List.pairwise_cons.mpr ⟨?_, hs⟩
      intro kv hkv
      rcases List.mem_cons.mp hkv with h1 | h1
      · subst h1
        simpa using hkk
      · have := hlt kv h1
        simp only
        omega
    · rw [if_neg (by omega), if_pos hkk]
      exact hs
    · rw [if_neg (by omega), if_neg (by omega)]
      refine List.pairwise_cons.mpr ⟨?_, ih hs2⟩
      intro kv hkv
      have hmem := mapInsert_forall (P := fun kv2 => kv2 = (k, v) ∨ kv2 ∈ rest)
        (fun kv2 h2 => Or.inr h2) (Or.inl rfl) kv hkv
      rcases hmem with h1 | h1
      · subst h1
        simpa using hkk
      · exact hlt kv h1

lemma insertEntityList_sorted {ε : Type} (gid : Nat) (handleOf : ε → Nat)
    {m : List (Nat × CollectionEntry ε)} (hs : KeysSorted m) (es : List ε) :
    KeysSorted (insertEntityList gid handleOf m es) := by
  induction es generalizing m with
  | nil => exact hs
  | cons e es ih => exact ih (mapInsert_sorted hs (handleOf e) ⟨e, gid⟩)

lemma mapFind_insertEntityList {ε : Type} (gid : Nat) (handleOf : ε → Nat)
    {m : List (Nat × CollectionEntry ε)} (hs : KeysSorted m) (es : List ε)
    (h : Nat) :
    mapFind (insertEntityList gid handleOf m es) h =
      match mapFind m h with
      | some x => some x
      | none =>
        mapFind (es.map (fun e => (handleOf e, (⟨e, gid⟩ : CollectionEntry ε)))) h := by
  induction es generalizing m with
  | nil => cases hmf : mapFind m h <;> simp [insertEntityList, mapFind, hmf]
  | cons e es ih =>
    have hstep := ih (mapInsert_sorted hs (handleOf e) ⟨e, gid⟩)
    rw [show insertEntityList gid handleOf m (e :: es) =
      insertEntityList gid handleOf (mapInsert m (handleOf e) ⟨e, gid⟩) es from rfl]
    rw [hstep, mapFind_mapInsert hs (handleOf e) h ⟨e, gid⟩]
    cases hmf : mapFind m h with
    | some x => simp
    | none =>
      by_cases hh : h = handleOf e
      · simp [mapFind, hh]
      · have hne : ¬handleOf e = h := fun hc => hh hc.symm
        simp [mapFind, hh, hne]

lemma mapFind_append {α : Type} (l1 l2 : List (Nat × α)) (h : Nat) :
    mapFind (l1 ++ l2) h =
      match mapFind l1 h with
      | some x => some x
      | none => mapFind l2 h := by
  induction l1 with
  | nil => cases hmf : mapFind l2 h <;> simp [mapFind, hmf]
  | cons hd rest ih =>
    obtain ⟨k', v'⟩ := hd
    by_cases hk : k' = h <;> simp [mapFind, hk, ih]

lemma groupKindEntries_cons_dead {ε : Type} (handleOf : ε → Nat)
    (membersOf : CallbackGroup → List ε) (w : World) (gid : Nat)
    (gids : List Nat) (hg : w.groups gid = none) :
    groupKindEntries handleOf membersOf w (gid :: gids) =
      groupKindEntries handleOf membersOf w gids := by
  simp [groupKindEntries, contributingGroups, List.filterMap_cons, hg]

lemma groupKindEntries_cons_busy {ε : Type} (handleOf : ε → Nat)
    (membersOf : CallbackGroup → List ε) (w : World) (gid : Nat)
    (g : CallbackGroup) (gids : List Nat) (hg : w.groups gid = some g)
    (hflag : g.can_be_taken_from = false) :
    groupKindEntries handleOf membersOf w (gid :: gids) =
      groupKindEntries handleOf membersOf w gids := by
  simp [groupKindEntries, contributingGroups, List.filterMap_cons, hg, hflag]

lemma groupKindEntries_cons_live {ε : Type} (handleOf : ε → Nat)
    (membersOf : CallbackGroup → List ε) (w : World) (gid : Nat)
    (g : CallbackGroup) (gids : List Nat) (hg : w.groups gid = some g)
    (hflag : g.can_be_taken_from = true) :
    groupKindEntries handleOf membersOf w (gid :: gids) =
      (membersOf g).map (fun e => (handleOf e, (⟨e, gid⟩ : CollectionEntry ε)))
        ++ groupKindEntries handleOf membersOf w gids := by
  simp [groupKindEntries, contributingGroups, List.filterMap_cons, hg, hflag]

lemma buildFold_find_generic {ε : Type} (w : World)
    (proj : ExecutorEntitiesCollection → List (Nat × CollectionEntry ε))
    (handleOf : ε → Nat) (membersOf : CallbackGroup → List ε)
    (hcomm : ∀ c gid, proj (buildStep w c gid) =
      match w.groups gid with
      | none => proj c
      | some g =>
        if g.can_be_taken_from then insertEntityList gid handleOf (proj c) (membersOf g)
        else proj c)
    (gids : List Nat) (c0 : ExecutorEntitiesCollection)
    (hs : KeysSorted (proj c0)) (h : Nat) :
    mapFind (proj (gids.foldl (buildStep w) c0)) h =
      (match mapFind (proj c0) h with
       | some x => some x
       | none => mapFind (groupKindEntries handleOf membersOf w gids) h) := by
  induction gids generalizing c0 with
  | nil =>
    cases hmf : mapFind (proj c0) h <;>
      simp [groupKindEntries, contributingGroups, mapFind, hmf]
  | cons gid gids ih =>
    rw [List.foldl_cons]
    cases hg : w.groups gid with
    | none =>
      have hstep : proj (buildStep w c0 gid) = proj c0 := by rw [hcomm, hg]
      rw [ih (buildStep w c0 gid) (hstep ▸ hs), hstep,
        groupKindEntries_cons_dead handleOf membersOf w gid gids hg]
    | some g =>
      cases hflag : g.can_be_taken_from with
      | true =>
        have hstep : proj (buildStep w c0 gid) =
            insertEntityList gid handleOf (proj c0) (membersOf g) := by
          rw [hcomm, hg]
          simp [hflag]
        have hs2 : KeysSorted (proj (buildStep w c0 gid)) := by
          rw [hstep]
          exact insertEntityList_sorted gid handleOf hs (membersOf g)
        rw [ih (buildStep w c0 gid) hs2, hstep, mapFind_insertEntityList gid handleOf hs,
          groupKindEntries_cons_live handleOf membersOf w gid g gids hg hflag,
          mapFind_append]
        cases hmf : mapFind (proj c0) h with
        | some x => simp
        | none =>
          cases mapFind ((membersOf g).map
            (fun e => (handleOf e, (⟨e, gid⟩ : CollectionEntry ε)))) h <;> simp
      | false =>
        have hstep : proj (buildStep w c0 gid) = proj c0 := by
          rw [hcomm, hg]
          simp [hflag]
        rw [ih (buildStep w c0 gid) (hstep ▸ hs), hstep,
          groupKindEntries_cons_busy handleOf membersOf w gid g gids hg hflag]

/-- C3 counterexample: `build_entities_collection` inserts with
`std::map::insert`, which keeps an existing entry for the key; with the two
live, admitted groups of `worldAB` each owning a subscription under handle
5, the stored entry is the first group's `(subA, group 0)`, not the second
group's — the insertion does not overwrite a prior entry for the handle. -/
theorem C3_counterexample :
    mapFind (build_entities_collection worldAB [0, 1]
        emptyCollection).subscriptions 5 = some ⟨subA, 0⟩ ∧
      mapFind (build_entities_collection worldAB [0, 1]
        emptyCollection).subscriptions 5 ≠ some ⟨subB, 1⟩ := by decide

/-- C3 (amended): rebuild first clears all mappings (its result is
independent of the prior collection state); expired group references and
groups whose admission flag is false at call time contribute no entities,
and every live group with flag true has each member entity inserted under
its handle into the mapping of its kind, keeping any prior entry for that
handle (the first insertion for a handle wins) — each mapping looks up
exactly as the first matching entry of the contributing groups' member
enumeration. -/
theorem C3_rebuild_characterization (w : World) (gids : List Nat)
    (c c2 : ExecutorEntitiesCollection) (h : Nat) :
    (build_entities_collection w gids c = build_entities_collection w gids c2) ∧
    (mapFind (build_entities_collection w gids c).subscriptions h =
      mapFind (groupKindEntries SubscriptionBase.handle
        CallbackGroup.subscriptions w gids) h) ∧
    (mapFind (build_entities_collection w gids c).services h =
      mapFind (groupKindEntries ServiceBase.handle CallbackGroup.services w gids) h) ∧
    (mapFind (build_entities_collection w gids c).clients h =
      mapFind (groupKindEntries ClientBase.handle CallbackGroup.clients w gids) h) ∧
    (mapFind (build_entities_collection w gids c).timers h =
      mapFind (groupKindEntries TimerBase.handle CallbackGroup.timers w gids) h) ∧
    (mapFind (build_entities_collection w gids c).waitables h =
      mapFind (groupKindEntries Waitable.handle CallbackGroup.waitables w gids) h) := by
  refine ⟨rfl, ?_, ?_, ?_, ?_, ?_⟩
  · have hf := buildFold_find_generic w (fun x => x.subscriptions)
      SubscriptionBase.handle CallbackGroup.subscriptions
      (by
        intro x gid
        cases hw : w.groups gid with
        | none => simp [buildStep, hw]
        | some g =>
          cases hfl : g.can_be_taken_from <;>
            simp [buildStep, hw, hfl, insertGroupEntities])
      gids emptyCollection (by simp [KeysSorted, emptyCollection]) h
    simpa [build_entities_collection, ExecutorEntitiesCollection.clear,
      emptyCollection, mapFind] using hf
  · have hf := buildFold_find_generic w (fun x => x.services)
      ServiceBase.handle CallbackGroup.services
      (by
        intro x gid
        cases hw : w.groups gid with
        | none => simp [buildStep, hw]
        | some g =>
          cases hfl : g.can_be_taken_from <;>
            simp [buildStep, hw, hfl, insertGroupEntities])
      gids emptyCollection (by simp [KeysSorted, emptyCollection]) h
    simpa [build_entities_collection, ExecutorEntitiesCollection.clear,
      emptyCollection, mapFind] using hf
  · have hf := buildFold_find_generic w (fun x => x.clients)
      ClientBase.handle CallbackGroup.clients
      (by
        intro x gid
        cases hw : w.groups gid with
        | none => simp [buildStep, hw]
        | some g =>
          cases hfl : g.can_be_taken_from <;>
            simp [buildStep, hw, hfl, insertGroupEntities])
      gids emptyCollection (by simp [KeysSorted, emptyCollection]) h
    simpa [build_entities_collection, ExecutorEntitiesCollection.clear,
      emptyCollection, mapFind] using hf
  · have hf := buildFold_find_generic w (fun x => x.timers)
      TimerBase.handle CallbackGroup.timers
      (by
        intro x gid
        cases hw : w.groups gid with
        | none => simp [buildStep, hw]
        | some g =>
          cases hfl : g.can_be_taken_from <;>
            simp [buildStep, hw, hfl, insertGroupEntities])
      gids emptyCollection (by simp [KeysSorted, emptyCollection]) h
    simpa [build_entities_collection, ExecutorEntitiesCollection.clear,
      emptyCollection, mapFind] using hf
  · have hf := buildFold_find_generic w (fun x => x.waitables)
      Waitable.handle CallbackGroup.waitables
      (by
        intro x gid
        cases hw : w.groups gid with
        | none => simp [buildStep, hw]
        | some g =>
          cases hfl : g.can_be_taken_from <;>
            simp [buildStep, hw, hfl, insertGroupEntities])
      gids emptyCollection (by simp [KeysSorted, emptyCollection]) h
    simpa [build_entities_collection, ExecutorEntitiesCollection.clear,
      emptyCollection, mapFind] using hf

end RclcppExec
